import Mathlib

/-!
# Verification of the StrangeNames word-space projection and selection engine

A shallow embedding of the JavaScript sources of the repository, together with
theorems settling the specification claims about them.

Modelling conventions:
* `Float32Array` values and JavaScript numbers are idealized as real numbers
  (`ℝ`); a vector is a `List ℝ`.
* Fallible operations return `Except String`.
* Functions that mutate objects in a loop are embedded as pure functions of
  their inputs; per-element loop bodies become helper functions on one element.
-/

namespace StrangeNames

/-! ## embeddings.js -/

/-- Embedding of `cosineSimilarity` (src/embeddings.js, lines 130-143).  The
source loops `i` from `0` below `a.length`; reading past the end of a list
yields the default `0` here.  The final guard is
`if (magA === 0 || magB === 0) return 0`. -/
noncomputable def cosineSimilarity (a b : List ℝ) : ℝ :=
  let dot := ∑ i ∈ Finset.range a.length, a.getD i 0 * b.getD i 0
  let magA := Real.sqrt (∑ i ∈ Finset.range a.length, a.getD i 0 * a.getD i 0)
  let magB := Real.sqrt (∑ i ∈ Finset.range a.length, b.getD i 0 * b.getD i 0)
  if magA = 0 ∨ magB = 0 then 0 else dot / (magA * magB)

/-- Embedding of `getVector` (src/embeddings.js, lines 153-156):
`vectors.subarray(index * dims, index * dims + dims)`. -/
def getVector (index : ℕ) (vectors : List ℝ) (dims : ℕ) : List ℝ :=
  (vectors.drop (index * dims)).take dims

/-- The data-integrity error of `loadVocabulary` (src/embeddings.js, line 51),
without the interpolated counts. -/
def dimensionMismatch : String :=
  "Dimension mismatch: the vocab.json and embeddings.bin files may be out of sync."

/-- Embedding of the dimension check of `loadVocabulary` (src/embeddings.js,
lines 48-55): `const dims = vectors.length / words.length` followed by
`if (!Number.isInteger(dims)) throw ...`.  The division is idealized as exact
rational division and `Number.isInteger` becomes a denominator-one check.  When
`wordCount = 0` the source divides by zero, which in JavaScript yields
`Infinity` (or `NaN` for `0 / 0`), never an integer, so that case fails the
check; it is split off explicitly because rational division by zero yields `0`
instead. -/
def loadVocabulary (wordCount bufLen : ℕ) : Except String ℕ :=
  if wordCount = 0 then Except.error dimensionMismatch
  else
    let dims : ℚ := (bufLen : ℚ) / (wordCount : ℚ)
    if dims.den = 1 then Except.ok dims.num.toNat else Except.error dimensionMismatch

/-! ## projection.js : selection -/

/-- Embedding of `isQualityWord` and `WORD_RE = /^[a-z]{3,15}$/`
(src/projection.js, lines 13-22): only 3 to 15 lowercase ASCII letters. -/
def isQualityWord (word : String) : Bool :=
  3 ≤ word.length && word.length ≤ 15 && word.toList.all fun c => 'a' ≤ c && c ≤ 'z'

/-- The indexed binary embedding format `{ words, vectors, dims }` consumed by
projection.js. -/
structure VocabData where
  words : List String
  vectors : List ℝ
  dims : ℕ

/-- The six live axis embeddings, keyed by role. -/
structure AxisVectors where
  xPos : List ℝ
  xNeg : List ℝ
  yPos : List ℝ
  yNeg : List ℝ
  zPos : List ℝ
  zNeg : List ℝ

/-- The per-word score of the scoring loop of `selectWordsForAxes`
(src/projection.js, lines 45-56): the sentinel `-1` for axis words and words
failing the quality filter, otherwise the Euclidean norm of the three cosine
differences against the axis pairs. -/
noncomputable def wordMagnitude (vocabData : VocabData) (axisVectors : AxisVectors)
    (axisWords : List String) (i : ℕ) : ℝ :=
  let word := vocabData.words.getD i ""
  if axisWords.contains word || !isQualityWord word then -1
  else
    let vec := getVector i vocabData.vectors vocabData.dims
    let dx := cosineSimilarity vec axisVectors.xPos - cosineSimilarity vec axisVectors.xNeg
    let dy := cosineSimilarity vec axisVectors.yPos - cosineSimilarity vec axisVectors.yNeg
    let dz := cosineSimilarity vec axisVectors.zPos - cosineSimilarity vec axisVectors.zNeg
    Real.sqrt (dx * dx + dy * dy + dz * dz)

/-- The collection loop of `selectWordsForAxes` (src/projection.js, lines
63-69): walk the sorted index list, keeping indices whose score is strictly
positive, until `topK` indices have been collected. -/
noncomputable def selectTop (mags : ℕ → ℝ) : List ℕ → ℕ → List ℕ
  | [], _ => []
  | i :: rest, topK =>
    if topK = 0 then []
    else if 0 < mags i then i :: selectTop mags rest (topK - 1)
    else selectTop mags rest topK

/-- The result record `{ indices, magnitudes }` of `selectWordsForAxes`. -/
structure SelectionResult where
  indices : List ℕ
  magnitudes : List ℝ

/-- Embedding of `selectWordsForAxes` (src/projection.js, lines 38-72).
The index array is sorted by the comparator `(a, b) => mags[b] - mags[a]`,
that is, descending by score; `List.mergeSort` is stable, as is
`Array.prototype.sort`. -/
noncomputable def selectWordsForAxes (vocabData : VocabData) (axisVectors : AxisVectors)
    (axisWords : List String) (topK : ℕ) : SelectionResult :=
  let n := vocabData.words.length
  let mags := wordMagnitude vocabData axisVectors axisWords
  let sorted := (List.range n).mergeSort fun a b => decide (mags b ≤ mags a)
  { indices := selectTop mags sorted topK
    magnitudes := (List.range n).map mags }

/-! ## projection.js : projection -/

/-- An element of the `raw` list of `projectWords` (src/projection.js, line 95). -/
structure RawWord where
  word : String
  x : ℝ
  y : ℝ
  z : ℝ

/-- The first pass of `projectWords` (src/projection.js, lines 88-96): raw axis
coordinates of one selected word, each a difference of cosine similarities. -/
noncomputable def rawProject (vocabData : VocabData) (axisVectors : AxisVectors)
    (idx : ℕ) : RawWord :=
  let vec := getVector idx vocabData.vectors vocabData.dims
  { word := vocabData.words.getD idx ""
    x := cosineSimilarity vec axisVectors.xPos - cosineSimilarity vec axisVectors.xNeg
    y := cosineSimilarity vec axisVectors.yPos - cosineSimilarity vec axisVectors.yNeg
    z := cosineSimilarity vec axisVectors.zPos - cosineSimilarity vec axisVectors.zNeg }

/-- The mean used by the local `stddev` of `projectWords` (src/projection.js,
line 100): `values.reduce((a, b) => a + b, 0) / values.length`. -/
noncomputable def mean (values : List ℝ) : ℝ := values.sum / values.length

/-- The population variance used by the local `stddev` of `projectWords`
(src/projection.js, line 101). -/
noncomputable def variance (values : List ℝ) : ℝ :=
  (values.map fun v => (v - mean values) ^ 2).sum / values.length

/-- Embedding of the local `stddev` of `projectWords` (src/projection.js, lines
99-103): `Math.sqrt(variance) || 1`.  For the empty list JavaScript computes
`NaN || 1 = 1`; here `0 / 0 = 0` makes the variance `0` and the same fallback
branch fires, so both models return `1`. -/
noncomputable def stddev (values : List ℝ) : ℝ :=
  if Real.sqrt (variance values) = 0 then 1 else Real.sqrt (variance values)

/-- A projected word `{ word, x, y, z, magnitude }`. -/
structure ProjectedWord where
  word : String
  x : ℝ
  y : ℝ
  z : ℝ
  magnitude : ℝ

/-- Embedding of `projectWords` (src/projection.js, lines 84-121): raw
coordinates, per-axis standard deviations, then the normalize-and-scale pass. -/
noncomputable def projectWords (vocabData : VocabData) (axisVectors : AxisVectors)
    (selectedIndices : List ℕ) (scale : ℝ) : List ProjectedWord :=
  let raw := selectedIndices.map (rawProject vocabData axisVectors)
  let sdX := stddev (raw.map fun w => w.x)
  let sdY := stddev (raw.map fun w => w.y)
  let sdZ := stddev (raw.map fun w => w.z)
  raw.map fun w =>
    { word := w.word
      x := w.x / sdX * scale
      y := w.y / sdY * scale
      z := w.z / sdZ * scale
      magnitude := Real.sqrt ((w.x / sdX) ^ 2 + (w.y / sdY) ^ 2 + (w.z / sdZ) ^ 2) }

/-! ## projection.js : beacons -/

/-- The six literal axis-word strings keyed by role (the `axes` record built in
src/main.js, lines 94-101). -/
structure AxisNames where
  xNeg : String
  xPos : String
  yPos : String
  yNeg : String
  zPos : String
  zNeg : String
deriving DecidableEq

/-- A beacon `{ word, x, y, z, axis }`. -/
structure Beacon where
  word : String
  x : ℝ
  y : ℝ
  z : ℝ
  axis : String

/-- The six running extrema of `getBeaconPositions` (src/projection.js, line
128), all initialized to `0`. -/
structure Extents where
  maxX : ℝ
  minX : ℝ
  maxY : ℝ
  minY : ℝ
  maxZ : ℝ
  minZ : ℝ

/-- One iteration of the extrema loop of `getBeaconPositions`
(src/projection.js, lines 130-137). -/
noncomputable def updateExtents (s : Extents) (w : ProjectedWord) : Extents :=
  { maxX := if w.x > s.maxX then w.x else s.maxX
    minX := if w.x < s.minX then w.x else s.minX
    maxY := if w.y > s.maxY then w.y else s.maxY
    minY := if w.y < s.minY then w.y else s.minY
    maxZ := if w.z > s.maxZ then w.z else s.maxZ
    minZ := if w.z < s.minZ then w.z else s.minZ }

/-- Embedding of `getBeaconPositions` (src/projection.js, lines 127-150), with
`pad = 1.2`, in the UI order left, right, up, down, forward, backward. -/
noncomputable def getBeaconPositions (axes : AxisNames) (projectedWords : List ProjectedWord) :
    List Beacon :=
  let e := projectedWords.foldl updateExtents ⟨0, 0, 0, 0, 0, 0⟩
  let pad : ℝ := 1.2
  [ { word := axes.xNeg, x := e.minX * pad, y := 0, z := 0, axis := "x-" },
    { word := axes.xPos, x := e.maxX * pad, y := 0, z := 0, axis := "x+" },
    { word := axes.yPos, x := 0, y := e.maxY * pad, z := 0, axis := "y+" },
    { word := axes.yNeg, x := 0, y := e.minY * pad, z := 0, axis := "y-" },
    { word := axes.zPos, x := 0, y := 0, z := e.maxZ * pad, axis := "z+" },
    { word := axes.zNeg, x := 0, y := 0, z := e.minZ * pad, axis := "z-" } ]

/-! ## wordcloud.js : level of detail -/

/-- The four thresholds of `updateWordVisibility` (src/wordcloud.js, lines
142-147). -/
structure LODConfig where
  innerFade : ℝ
  nearDistance : ℝ
  farDistance : ℝ
  cullDistance : ℝ

/-- The default thresholds of `updateWordVisibility` (src/wordcloud.js, lines
143-146). -/
noncomputable def defaultLOD : LODConfig :=
  { innerFade := 5, nearDistance := 15, farDistance := 150, cullDistance := 250 }

/-- The per-sprite body of `updateWordVisibility` (src/wordcloud.js, lines
148-173), as a function of the camera distance.  `none` models
`sprite.visible = false` (the culled branch never writes an opacity); `some o`
models `sprite.visible = true` with `sprite.material.opacity = o`.  The first
line embeds `const baseOpacity = sprite.userData.baseOpacity || 0.5`. -/
noncomputable def visibilityAt (cfg : LODConfig) (baseOpacityRaw dist : ℝ) : Option ℝ :=
  let baseOpacity := if baseOpacityRaw = 0 then 0.5 else baseOpacityRaw
  if dist > cfg.cullDistance then none
  else if dist > cfg.farDistance then
    some (baseOpacity * (1 - (dist - cfg.farDistance) / (cfg.cullDistance - cfg.farDistance)))
  else if dist < cfg.innerFade then
    some (baseOpacity * (dist / cfg.innerFade) * 0.5)
  else if dist < cfg.nearDistance then
    some (baseOpacity * (0.5 + (dist - cfg.innerFade) / (cfg.nearDistance - cfg.innerFade) * 0.5))
  else some baseOpacity

/-- The opacity a sprite contributes on screen: an invisible sprite shows
nothing, so the culled case counts as `0`. -/
noncomputable def effectiveOpacity (cfg : LODConfig) (baseOpacityRaw dist : ℝ) : ℝ :=
  (visibilityAt cfg baseOpacityRaw dist).getD 0

/-- A three.js position vector. -/
structure Vec3 where
  x : ℝ
  y : ℝ
  z : ℝ

/-- three.js `Vector3.prototype.distanceTo`, used at src/wordcloud.js line 149. -/
noncomputable def distanceTo (a b : Vec3) : ℝ :=
  Real.sqrt ((a.x - b.x) ^ 2 + (a.y - b.y) ^ 2 + (a.z - b.z) ^ 2)

/-- The data of one word sprite that `updateWordVisibility` reads. -/
structure Sprite where
  position : Vec3
  baseOpacity : ℝ

/-- Embedding of `updateWordVisibility` (src/wordcloud.js, lines 142-174):
the loop over the word group, applying the per-sprite classification to the
distance between each sprite and the camera. -/
noncomputable def updateWordVisibility (cfg : LODConfig) (sprites : List Sprite)
    (cameraPosition : Vec3) : List (Option ℝ) :=
  sprites.map fun s => visibilityAt cfg s.baseOpacity (distanceTo s.position cameraPosition)

/-! ## main.js : launch validation -/

/-- The six raw input-field values read by the launch click handler
(src/main.js, lines 94-101). -/
structure AxisInput where
  left : String
  right : String
  up : String
  down : String
  forward : String
  backward : String

/-- JavaScript `value.trim().toLowerCase()` (src/main.js, lines 95-100),
modelled character-wise for the ASCII range: strip leading and trailing
whitespace, then lowercase the letters `A`-`Z`.  (`String.trim` and
`String.toLower` of the core library do not reduce inside the kernel, so the
same maps are spelled out on the character list.) -/
def normalizeInput (s : String) : String :=
  let ws : Char → Bool := fun c => c = ' ' || c = '\t' || c = '\n' || c = '\r'
  let lower : Char → Char := fun c =>
    if 'A' ≤ c && c ≤ 'Z' then Char.ofNat (c.toNat + 32) else c
  ⟨(((s.toList.dropWhile ws).reverse.dropWhile ws).reverse).map lower⟩

/-- The validation prefix of the launch click handler (src/main.js, lines
94-109): normalize the six fields into the `axes` record, then reject with
`Please fill in all 6 words.` when any normalized word is empty.  This check
runs before `embedWords`, `selectWordsForAxes` and `projectWords` are ever
called. -/
def validateAxisWords (input : AxisInput) : Except String AxisNames :=
  let axes : AxisNames :=
    { xNeg := normalizeInput input.left
      xPos := normalizeInput input.right
      yPos := normalizeInput input.up
      yNeg := normalizeInput input.down
      zPos := normalizeInput input.forward
      zNeg := normalizeInput input.backward }
  if axes.xNeg = "" ∨ axes.xPos = "" ∨ axes.yPos = "" ∨ axes.yNeg = "" ∨
      axes.zPos = "" ∨ axes.zNeg = "" then
    Except.error "Please fill in all 6 words."
  else Except.ok axes

/-! ## Spec-side measure for claim C2 -/

/-- The `eligibleCount` of the specification, stated there as the number of
vocabulary words that pass the quality filter and are not axis words.  This
definition follows the words of the spec and is compared against the behavior
of `selectWordsForAxes`. -/
def eligibleCount (words : List String) (axisWords : List String) : ℕ :=
  (words.filter fun w => isQualityWord w && !axisWords.contains w).length

/-! ## Lemmas about the selection loop -/

lemma selectTop_sublist (mags : ℕ → ℝ) :
    ∀ (l : List ℕ) (k : ℕ), (selectTop mags l k).Sublist l := by
  intro l
  induction l with
  | nil => intro k; simp [selectTop]
  | cons i rest ih =>
    intro k
    by_cases hk : k = 0
    · simp [selectTop, hk]
    · by_cases hpos : 0 < mags i
      · simpa [selectTop, hk, hpos] using (ih (k - 1)).cons₂ i
      · simp only [selectTop, if_neg hk, if_neg hpos]
        exact (ih k).cons i

lemma selectTop_length (mags : ℕ → ℝ) :
    ∀ (l : List ℕ) (k : ℕ),
      (selectTop mags l k).length = min k (l.countP fun i => decide (0 < mags i)) := by
  intro l
  induction l with
  | nil => intro k; simp [selectTop]
  | cons i rest ih =>
    intro k
    by_cases hk : k = 0
    · simp [selectTop, hk]
    · by_cases hpos : 0 < mags i
      · simp [selectTop, if_neg hk, if_pos hpos, ih, List.countP_cons, hpos]
        omega
      · simp [selectTop, if_neg hk, if_neg hpos, ih, List.countP_cons, hpos]

lemma selectTop_pos (mags : ℕ → ℝ) :
    ∀ (l : List ℕ) (k : ℕ) (i : ℕ), i ∈ selectTop mags l k → 0 < mags i := by
  intro l
  induction l with
  | nil => intro k i h; simp [selectTop] at h
  | cons j rest ih =>
    intro k i h
    by_cases hk : k = 0
    · simp [selectTop, hk] at h
    · by_cases hpos : 0 < mags j
      · simp only [selectTop, if_neg hk, if_pos hpos] at h
        rcases List.mem_cons.mp h with rfl | h2
        · exact hpos
        · exact ih _ _ h2
      · simp only [selectTop, if_neg hk, if_neg hpos] at h
        exact ih _ _ h

lemma selectWordsForAxes_indices (vocabData : VocabData) (axisVectors : AxisVectors)
    (axisWords : List String) (topK : ℕ) :
    (selectWordsForAxes vocabData axisVectors axisWords topK).indices =
      selectTop (wordMagnitude vocabData axisVectors axisWords)
        ((List.range vocabData.words.length).mergeSort fun a b =>
          decide (wordMagnitude vocabData axisVectors axisWords b ≤
            wordMagnitude vocabData axisVectors axisWords a)) topK := rfl

/-- The zero-magnitude fallback of `cosineSimilarity`: when either magnitude
under the sum is zero, the similarity is `0` rather than an error. -/
lemma cosineSimilarity_eq_zero (a b : List ℝ)
    (h : (∑ i ∈ Finset.range a.length, a.getD i 0 * a.getD i 0) = 0 ∨
         (∑ i ∈ Finset.range a.length, b.getD i 0 * b.getD i 0) = 0) :
    cosineSimilarity a b = 0 := by
  unfold cosineSimilarity
  rcases h with h | h <;>
    simp only [List.getD_eq_getElem?_getD] at h <;> simp [h]

/-! ## Concrete evaluation helpers -/

lemma cos_e1_e1 : cosineSimilarity [(1 : ℝ), 0] [1, 0] = 1 := by
  unfold cosineSimilarity
  norm_num [Finset.sum_range_succ, List.getD]

lemma cos_e1_e2 : cosineSimilarity [(1 : ℝ), 0] [0, 1] = 0 := by
  unfold cosineSimilarity
  norm_num [Finset.sum_range_succ, List.getD]

lemma cos_e1_zero : cosineSimilarity [(1 : ℝ), 0] [0, 0] = 0 := by
  apply cosineSimilarity_eq_zero
  right
  norm_num [Finset.sum_range_succ, List.getD]

lemma cos_zero_any (b : List ℝ) : cosineSimilarity [(0 : ℝ), 0] b = 0 := by
  apply cosineSimilarity_eq_zero
  left
  norm_num [Finset.sum_range_succ, List.getD]

/-- A one-word vocabulary: the word `cat` with vector `(1, 0)`. -/
noncomputable def vocabCat : VocabData := ⟨["cat"], [1, 0], 2⟩

/-- A one-word vocabulary: the word `cat` carrying the zero vector. -/
noncomputable def vocabZeroVec : VocabData := ⟨["cat"], [0, 0], 2⟩

/-- An axis set whose `xPos` member is the zero vector (zero magnitude);
the remaining five are unit basis vectors. -/
noncomputable def axesZeroX : AxisVectors := ⟨[0, 0], [0, 1], [1, 0], [0, 1], [0, 1], [0, 1]⟩

/-- An axis set of unit basis vectors, no zero vector anywhere. -/
noncomputable def axesUnit : AxisVectors := ⟨[1, 0], [0, 1], [1, 0], [0, 1], [1, 0], [0, 1]⟩

lemma isQualityWord_cat : isQualityWord "cat" = true := by decide

lemma wordMagnitude_cat_zeroX : wordMagnitude vocabCat axesZeroX [] 0 = 1 := by
  unfold wordMagnitude vocabCat axesZeroX
  norm_num [getVector, isQualityWord_cat, cos_e1_e1, cos_e1_e2, cos_e1_zero]

lemma wordMagnitude_zeroVec_unit : wordMagnitude vocabZeroVec axesUnit [] 0 = 0 := by
  unfold wordMagnitude vocabZeroVec axesUnit
  norm_num [getVector, isQualityWord_cat, cos_zero_any]

lemma selectWords_cat_zeroX :
    (selectWordsForAxes vocabCat axesZeroX [] 7000).indices = [0] := by
  rw [selectWordsForAxes_indices]
  show selectTop _ ((List.range vocabCat.words.length).mergeSort _) 7000 = [0]
  have hn : vocabCat.words.length = 1 := rfl
  have hr : List.range 1 = [0] := by simp [List.range_succ]
  rw [hn, hr, List.mergeSort_singleton]
  simp [selectTop, wordMagnitude_cat_zeroX]

lemma selectWords_zeroVec_unit :
    (selectWordsForAxes vocabZeroVec axesUnit [] 7000).indices = [] := by
  rw [selectWordsForAxes_indices]
  show selectTop _ ((List.range vocabZeroVec.words.length).mergeSort _) 7000 = []
  have hn : vocabZeroVec.words.length = 1 := rfl
  have hr : List.range 1 = [0] := by simp [List.range_succ]
  rw [hn, hr, List.mergeSort_singleton]
  simp [selectTop, wordMagnitude_zeroVec_unit]

/-! ## Claim C1 -/

/-- C1 counterexample: the axis set `axesZeroX` contains a zero-magnitude
vector (`xPos = (0, 0)`), yet `selectWordsForAxes` raises no error and returns
a selected index list, and `projectWords` still produces a projected-word list
from it.  No rejection happens before projection. -/
theorem c1_counterexample :
    (selectWordsForAxes vocabCat axesZeroX [] 7000).indices = [0] ∧
    projectWords vocabCat axesZeroX [0] 50 ≠ [] := by
  refine ⟨selectWords_cat_zeroX, ?_⟩
  simp [projectWords]

/-- C1 (amended): an axis vector of zero magnitude is not rejected and no error
is raised before projection; `cosineSimilarity` instead returns `0` for any
comparison in which either vector has zero magnitude, and selection and
projection proceed normally on those zeros. -/
theorem c1_zero_axis_not_rejected (a b : List ℝ)
    (h : (∑ i ∈ Finset.range a.length, a.getD i 0 * a.getD i 0) = 0 ∨
         (∑ i ∈ Finset.range a.length, b.getD i 0 * b.getD i 0) = 0) :
    cosineSimilarity a b = 0 :=
  cosineSimilarity_eq_zero a b h

/-- C1 witness: the fallback fires at the concrete pair `(1,0)`, `(0,0)`. -/
theorem c1_zero_axis_not_rejected_witness :
    ((∑ i ∈ Finset.range ([(1 : ℝ), 0]).length, ([(1 : ℝ), 0]).getD i 0 * ([(1 : ℝ), 0]).getD i 0) = 0 ∨
     (∑ i ∈ Finset.range ([(1 : ℝ), 0]).length, ([(0 : ℝ), 0]).getD i 0 * ([(0 : ℝ), 0]).getD i 0) = 0) ∧
    cosineSimilarity [(1 : ℝ), 0] [(0 : ℝ), 0] = 0 :=
  ⟨Or.inr (by norm_num [Finset.sum_range_succ, List.getD]),
   c1_zero_axis_not_rejected _ _ (Or.inr (by norm_num [Finset.sum_range_succ, List.getD]))⟩

/-! ## Claim C2 -/

/-- C2 counterexample: the word `cat` of `vocabZeroVec` passes the quality
filter and is no axis word, so the eligible count of the claim is `1` and
`min(topK, eligibleCount) = 1`; but its relevance magnitude is exactly `0`,
the selection loop demands a strictly positive score, and the returned index
list is empty. -/
theorem c2_counterexample :
    (selectWordsForAxes vocabZeroVec axesUnit [] 7000).indices.length = 0 ∧
    min 7000 (eligibleCount vocabZeroVec.words []) = 1 := by
  constructor
  · rw [selectWords_zeroVec_unit]; rfl
  · decide

/-- C2 (amended): `selectWordsForAxes` returns at most `topK` indices with no
duplicates, and returns exactly `min(topK, positiveCount)` indices, where
`positiveCount` counts the vocabulary indices whose relevance score is strictly
positive — equivalently, the words that pass the quality filter, are not axis
words, and have nonzero raw axis-projected magnitude. -/
theorem c2_bounded_selection (vocabData : VocabData) (axisVectors : AxisVectors)
    (axisWords : List String) (topK : ℕ) :
    (selectWordsForAxes vocabData axisVectors axisWords topK).indices.length =
      min topK ((List.range vocabData.words.length).countP fun i =>
        decide (0 < wordMagnitude vocabData axisVectors axisWords i)) ∧
    (selectWordsForAxes vocabData axisVectors axisWords topK).indices.Nodup ∧
    (selectWordsForAxes vocabData axisVectors axisWords topK).indices.length ≤ topK := by
  rw [selectWordsForAxes_indices]
  refine ⟨?_, ?_, ?_⟩
  · rw [selectTop_length]
    congr 1
    exact (List.mergeSort_perm _ _).countP_eq _
  · exact (selectTop_sublist _ _ _).nodup
      ((List.mergeSort_perm _ _).nodup_iff.mpr (List.nodup_range _))
  · rw [selectTop_length]
    omega

/-! ## Claim C3 -/

/-- C3: every index in the returned selection carries a word that passes the
quality filter (3-15 lowercase ASCII letters) and is not one of the literal
axis words, regardless of its geometric magnitude: sentinel-scored words can
never enter the output. -/
theorem c3_exclusion (vocabData : VocabData) (axisVectors : AxisVectors)
    (axisWords : List String) (topK : ℕ) :
    ((selectWordsForAxes vocabData axisVectors axisWords topK).indices.all fun i =>
      isQualityWord (vocabData.words.getD i "") &&
        !axisWords.contains (vocabData.words.getD i "")) = true := by
  rw [List.all_eq_true]
  intro i hi
  rw [selectWordsForAxes_indices] at hi
  have hpos := selectTop_pos _ _ _ _ hi
  by_cases hb : (axisWords.contains (vocabData.words.getD i "") ||
      !isQualityWord (vocabData.words.getD i "")) = true
  · exfalso
    rw [wordMagnitude] at hpos
    rw [if_pos hb] at hpos
    norm_num at hpos
  · have hb' : (axisWords.contains (vocabData.words.getD i "") ||
        !isQualityWord (vocabData.words.getD i "")) = false := by
      simpa using hb
    rw [Bool.or_eq_false_iff] at hb'
    obtain ⟨hc, hq⟩ := hb'
    simp only [Bool.not_eq_false'] at hq
    simp only [Bool.and_eq_true, Bool.not_eq_true']
    exact ⟨hq, hc⟩

/-! ## Claim C4 -/

lemma den_eq_one_iff_dvd (wordCount bufLen : ℕ) (h : wordCount ≠ 0) :
    ((bufLen : ℚ) / (wordCount : ℚ)).den = 1 ↔ wordCount ∣ bufLen := by
  have hN : (wordCount : ℚ) ≠ 0 := Nat.cast_ne_zero.mpr h
  constructor
  · intro hd
    have hq := (Rat.den_eq_one_iff _).mp hd
    have hmul : ((((bufLen : ℚ) / (wordCount : ℚ)).num : ℚ)) * (wordCount : ℚ) =
        (bufLen : ℚ) := by
      rw [hq, div_mul_cancel₀ _ hN]
    have hz : ((bufLen : ℚ) / (wordCount : ℚ)).num * (wordCount : ℤ) = (bufLen : ℤ) := by
      exact_mod_cast hmul
    have hdvd : (wordCount : ℤ) ∣ (bufLen : ℤ) :=
      ⟨((bufLen : ℚ) / (wordCount : ℚ)).num, by rw [← hz]; ring⟩
    exact_mod_cast hdvd
  · rintro ⟨d, rfl⟩
    have hcast : ((wordCount * d : ℕ) : ℚ) / (wordCount : ℚ) = (d : ℚ) := by
      push_cast
      rw [mul_comm, mul_div_assoc, div_self hN, mul_one]
    rw [hcast, Rat.den_natCast]

/-- C4 counterexample: with vocabulary size `N = 0` and buffer length `L = 0`,
`L` is a multiple of `N` (`0 = 0 × 3`), yet loading fails: the source divides
by zero, producing `NaN`, which is not an integer. -/
theorem c4_counterexample :
    (0 : ℕ) = 0 * 3 ∧ loadVocabulary 0 0 = Except.error dimensionMismatch :=
  ⟨rfl, rfl⟩

/-- C4 (amended): for every vocabulary size `N ≥ 1` and buffer length `L`,
loading fails with the data-integrity error whenever `L` is not an exact
multiple of `N`, and for `L = N × D` it succeeds and reports dimensionality
`D`; for `N = 0` loading always fails, because the dimension `L / 0` is never
an integer in JavaScript. -/
theorem c4_divisibility (wordCount bufLen : ℕ) :
    (wordCount = 0 → loadVocabulary wordCount bufLen = Except.error dimensionMismatch) ∧
    (1 ≤ wordCount → bufLen % wordCount ≠ 0 →
      loadVocabulary wordCount bufLen = Except.error dimensionMismatch) ∧
    (∀ dims : ℕ, 1 ≤ wordCount → bufLen = wordCount * dims →
      loadVocabulary wordCount bufLen = Except.ok dims) := by
  refine ⟨?_, ?_, ?_⟩
  · intro h
    simp [loadVocabulary, h]
  · intro h1 hmod
    have h0 : wordCount ≠ 0 := by omega
    have hden : ¬ ((bufLen : ℚ) / (wordCount : ℚ)).den = 1 := by
      rw [den_eq_one_iff_dvd _ _ h0]
      intro hdvd
      exact hmod (Nat.mod_eq_zero_of_dvd hdvd)
    simp [loadVocabulary, h0, hden]
  · intro dims h1 hbuf
    have h0 : wordCount ≠ 0 := by omega
    subst hbuf
    have hN : (wordCount : ℚ) ≠ 0 := Nat.cast_ne_zero.mpr h0
    have hq : ((wordCount * dims : ℕ) : ℚ) / (wordCount : ℚ) = (dims : ℚ) := by
      push_cast
      rw [mul_comm, mul_div_assoc, div_self hN, mul_one]
    simp [loadVocabulary, h0, hq, Rat.den_natCast, Rat.num_natCast]

/-- C4 witness: a concrete succeeding load, 6 floats over 3 words giving
dimensionality 2. -/
theorem c4_divisibility_witness :
    (6 : ℕ) = 3 * 2 ∧ loadVocabulary 3 6 = Except.ok 2 :=
  ⟨rfl, (c4_divisibility 3 6).2.2 2 (by omega) rfl⟩

/-! ## Lemmas about the normalization pass -/

lemma variance_nonneg (values : List ℝ) : 0 ≤ variance values := by
  unfold variance
  apply div_nonneg
  · apply List.sum_nonneg
    intro x hx
    obtain ⟨v, _, rfl⟩ := List.mem_map.mp hx
    positivity
  · positivity

lemma sum_map_div (l : List ℝ) (c : ℝ) : (l.map fun x => x / c).sum = l.sum / c := by
  simp only [div_eq_mul_inv]
  simpa using List.sum_map_mul_right l (fun x => x) c⁻¹

lemma mean_map_div (l : List ℝ) (c : ℝ) : mean (l.map fun x => x / c) = mean l / c := by
  unfold mean
  rw [List.length_map, sum_map_div]
  ring

lemma variance_map_div (l : List ℝ) (c : ℝ) :
    variance (l.map fun x => x / c) = variance l / c ^ 2 := by
  unfold variance
  rw [mean_map_div, List.length_map, List.map_map]
  have hfun : ((fun v => (v - mean l / c) ^ 2) ∘ fun x => x / c) =
      fun x => (x - mean l) ^ 2 / c ^ 2 := by
    funext x
    simp only [Function.comp]
    rw [div_sub_div_same, div_pow]
  rw [hfun]
  have hsplit : (l.map fun x => (x - mean l) ^ 2 / c ^ 2) =
      (l.map fun x => (x - mean l) ^ 2).map fun y => y / c ^ 2 := by
    rw [List.map_map]; rfl
  rw [hsplit, sum_map_div]
  ring

lemma stddev_eq_sqrt (l : List ℝ) (h : variance l ≠ 0) :
    stddev l = Real.sqrt (variance l) := by
  unfold stddev
  rw [if_neg]
  rw [Real.sqrt_eq_zero']
  push_neg
  exact lt_of_le_of_ne (variance_nonneg l) (Ne.symm h)

lemma stddev_sq (l : List ℝ) (h : variance l ≠ 0) : stddev l ^ 2 = variance l := by
  rw [stddev_eq_sqrt l h, Real.sq_sqrt (variance_nonneg l)]

lemma stddev_of_variance_zero (l : List ℝ) (h : variance l = 0) : stddev l = 1 := by
  unfold stddev
  rw [h, Real.sqrt_zero, if_pos rfl]

lemma stddev_eq_one_of_variance_one (l : List ℝ) (h : variance l = 1) : stddev l = 1 := by
  unfold stddev
  rw [h, Real.sqrt_one]
  norm_num

lemma stddev_normalized (l : List ℝ) (h : variance l ≠ 0) :
    stddev (l.map fun x => x / stddev l) = 1 := by
  apply stddev_eq_one_of_variance_one
  rw [variance_map_div, stddev_sq l h, div_self h]

lemma variance_ne_zero (l : List ℝ) (x1 x2 : ℝ)
    (h1 : x1 ∈ l) (h2 : x2 ∈ l) (hne : x1 ≠ x2) : variance l ≠ 0 := by
  have hsq : ∀ y ∈ l.map fun v => (v - mean l) ^ 2, 0 ≤ y := by
    intro y hy
    obtain ⟨v, _, rfl⟩ := List.mem_map.mp hy
    positivity
  have hx : x1 - mean l ≠ 0 ∨ x2 - mean l ≠ 0 := by
    by_contra hc
    push_neg at hc
    apply hne
    have e1 := hc.1
    have e2 := hc.2
    linarith
  have hlen : (0 : ℝ) < l.length := by
    have hne' : l ≠ [] := by rintro rfl; simp at h1
    exact_mod_cast List.length_pos.mpr hne'
  unfold variance
  apply ne_of_gt
  apply div_pos _ hlen
  rcases hx with hx | hx
  · calc (0 : ℝ) < (x1 - mean l) ^ 2 := by positivity
      _ ≤ (l.map fun v => (v - mean l) ^ 2).sum :=
        List.single_le_sum hsq _ (List.mem_map_of_mem _ h1)
  · calc (0 : ℝ) < (x2 - mean l) ^ 2 := by positivity
      _ ≤ (l.map fun v => (v - mean l) ^ 2).sum :=
        List.single_le_sum hsq _ (List.mem_map_of_mem _ h2)

lemma projectWords_x_div_scale (vocabData : VocabData) (axisVectors : AxisVectors)
    (selectedIndices : List ℕ) (scale : ℝ) (hs : scale ≠ 0) :
    ((projectWords vocabData axisVectors selectedIndices scale).map fun w => w.x / scale) =
      ((selectedIndices.map (rawProject vocabData axisVectors)).map fun w => w.x).map
        fun x => x /
          stddev ((selectedIndices.map (rawProject vocabData axisVectors)).map fun w => w.x) := by
  simp only [projectWords, List.map_map]
  apply List.map_congr_left
  intro i _
  dsimp only [Function.comp]
  rw [mul_div_cancel_right₀ _ hs]

lemma projectWords_y_div_scale (vocabData : VocabData) (axisVectors : AxisVectors)
    (selectedIndices : List ℕ) (scale : ℝ) (hs : scale ≠ 0) :
    ((projectWords vocabData axisVectors selectedIndices scale).map fun w => w.y / scale) =
      ((selectedIndices.map (rawProject vocabData axisVectors)).map fun w => w.y).map
        fun x => x /
          stddev ((selectedIndices.map (rawProject vocabData axisVectors)).map fun w => w.y) := by
  simp only [projectWords, List.map_map]
  apply List.map_congr_left
  intro i _
  dsimp only [Function.comp]
  rw [mul_div_cancel_right₀ _ hs]

lemma projectWords_z_div_scale (vocabData : VocabData) (axisVectors : AxisVectors)
    (selectedIndices : List ℕ) (scale : ℝ) (hs : scale ≠ 0) :
    ((projectWords vocabData axisVectors selectedIndices scale).map fun w => w.z / scale) =
      ((selectedIndices.map (rawProject vocabData axisVectors)).map fun w => w.z).map
        fun x => x /
          stddev ((selectedIndices.map (rawProject vocabData axisVectors)).map fun w => w.z) := by
  simp only [projectWords, List.map_map]
  apply List.map_congr_left
  intro i _
  dsimp only [Function.comp]
  rw [mul_div_cancel_right₀ _ hs]

/-! ## Claim C5 -/

/-- C5: for every selected set, on each axis whose raw coordinates are not all
identical, the population standard deviation of the final positions after
per-axis normalization but before the scale factor (that is, of the output
coordinates divided by the scale) is exactly 1; an axis whose raw variance is
zero is instead given standard deviation 1, so no division by zero occurs. -/
theorem c5_normalization (vocabData : VocabData) (axisVectors : AxisVectors)
    (selectedIndices : List ℕ) (scale : ℝ) (hs : scale ≠ 0) :
    ((∃ w1 ∈ selectedIndices.map (rawProject vocabData axisVectors),
      ∃ w2 ∈ selectedIndices.map (rawProject vocabData axisVectors), w1.x ≠ w2.x) →
      stddev ((projectWords vocabData axisVectors selectedIndices scale).map
        fun w => w.x / scale) = 1) ∧
    ((∃ w1 ∈ selectedIndices.map (rawProject vocabData axisVectors),
      ∃ w2 ∈ selectedIndices.map (rawProject vocabData axisVectors), w1.y ≠ w2.y) →
      stddev ((projectWords vocabData axisVectors selectedIndices scale).map
        fun w => w.y / scale) = 1) ∧
    ((∃ w1 ∈ selectedIndices.map (rawProject vocabData axisVectors),
      ∃ w2 ∈ selectedIndices.map (rawProject vocabData axisVectors), w1.z ≠ w2.z) →
      stddev ((projectWords vocabData axisVectors selectedIndices scale).map
        fun w => w.z / scale) = 1) ∧
    (variance ((selectedIndices.map (rawProject vocabData axisVectors)).map fun w => w.x) = 0 →
      stddev ((selectedIndices.map (rawProject vocabData axisVectors)).map fun w => w.x) = 1) ∧
    (variance ((selectedIndices.map (rawProject vocabData axisVectors)).map fun w => w.y) = 0 →
      stddev ((selectedIndices.map (rawProject vocabData axisVectors)).map fun w => w.y) = 1) ∧
    (variance ((selectedIndices.map (rawProject vocabData axisVectors)).map fun w => w.z) = 0 →
      stddev ((selectedIndices.map (rawProject vocabData axisVectors)).map fun w => w.z) = 1) := by
  refine ⟨?_, ?_, ?_, fun h => stddev_of_variance_zero _ h,
    fun h => stddev_of_variance_zero _ h, fun h => stddev_of_variance_zero _ h⟩
  · rintro ⟨w1, hw1, w2, hw2, hne⟩
    have hvar := variance_ne_zero
      ((selectedIndices.map (rawProject vocabData axisVectors)).map fun w => w.x)
      w1.x w2.x (List.mem_map_of_mem _ hw1) (List.mem_map_of_mem _ hw2) hne
    rw [projectWords_x_div_scale vocabData axisVectors selectedIndices scale hs]
    exact stddev_normalized _ hvar
  · rintro ⟨w1, hw1, w2, hw2, hne⟩
    have hvar := variance_ne_zero
      ((selectedIndices.map (rawProject vocabData axisVectors)).map fun w => w.y)
      w1.y w2.y (List.mem_map_of_mem _ hw1) (List.mem_map_of_mem _ hw2) hne
    rw [projectWords_y_div_scale vocabData axisVectors selectedIndices scale hs]
    exact stddev_normalized _ hvar
  · rintro ⟨w1, hw1, w2, hw2, hne⟩
    have hvar := variance_ne_zero
      ((selectedIndices.map (rawProject vocabData axisVectors)).map fun w => w.z)
      w1.z w2.z (List.mem_map_of_mem _ hw1) (List.mem_map_of_mem _ hw2) hne
    rw [projectWords_z_div_scale vocabData axisVectors selectedIndices scale hs]
    exact stddev_normalized _ hvar

/-- C5 witness: the theorem applies at scale 50; on the one-word selection the
raw x-variance is zero and the degenerate branch reports standard deviation 1. -/
theorem c5_normalization_witness :
    (50 : ℝ) ≠ 0 ∧
    (variance ((([0] : List ℕ).map (rawProject vocabCat axesUnit)).map fun w => w.x) = 0 →
      stddev ((([0] : List ℕ).map (rawProject vocabCat axesUnit)).map fun w => w.x) = 1) :=
  ⟨by norm_num, (c5_normalization vocabCat axesUnit [0] 50 (by norm_num)).2.2.2.1⟩

/-! ## Claim C8 -/

/-- C8: the magnitude field of `projectWords` does not depend on the scale
parameter — two runs with different scales produce identical magnitude lists —
and each magnitude equals the Euclidean norm of the three
standard-deviation-normalized unscaled axis ratios, recoverable from the
output coordinates as the norm of the coordinates divided by the scale. -/
theorem c8_magnitude_scale_invariant (vocabData : VocabData) (axisVectors : AxisVectors)
    (selectedIndices : List ℕ) (scale1 scale2 : ℝ) (hs : scale1 ≠ 0) :
    ((projectWords vocabData axisVectors selectedIndices scale1).map fun w => w.magnitude) =
      ((projectWords vocabData axisVectors selectedIndices scale2).map fun w => w.magnitude) ∧
    ((projectWords vocabData axisVectors selectedIndices scale1).map fun w => w.magnitude) =
      ((projectWords vocabData axisVectors selectedIndices scale1).map fun w =>
        Real.sqrt ((w.x / scale1) ^ 2 + (w.y / scale1) ^ 2 + (w.z / scale1) ^ 2)) := by
  constructor
  · simp only [projectWords, List.map_map]
    rfl
  · simp only [projectWords, List.map_map]
    apply List.map_congr_left
    intro i _
    dsimp only [Function.comp]
    rw [mul_div_cancel_right₀ _ hs, mul_div_cancel_right₀ _ hs, mul_div_cancel_right₀ _ hs]

/-- C8 witness: the theorem applies at the concrete scales 80 and 1. -/
theorem c8_magnitude_scale_invariant_witness :
    (80 : ℝ) ≠ 0 ∧
    ((projectWords vocabCat axesUnit [0] 80).map fun w => w.magnitude) =
      ((projectWords vocabCat axesUnit [0] 1).map fun w => w.magnitude) :=
  ⟨by norm_num, (c8_magnitude_scale_invariant vocabCat axesUnit [0] 80 1 (by norm_num)).1⟩


/-! ## Lemmas about the beacon extrema -/

lemma le_foldl_max : ∀ (l : List ℝ) (a : ℝ), a ≤ l.foldl max a := by
  intro l
  induction l with
  | nil => intro a; simp
  | cons x t ih => intro a; exact le_trans (le_max_left a x) (ih (max a x))

lemma mem_le_foldl_max : ∀ (l : List ℝ) (a x : ℝ), x ∈ l → x ≤ l.foldl max a := by
  intro l
  induction l with
  | nil => intro a x h; simp at h
  | cons y t ih =>
    intro a x h
    rcases List.mem_cons.mp h with rfl | h2
    · exact le_trans (le_max_right a x) (le_foldl_max t (max a x))
    · exact ih (max a y) x h2

lemma foldl_max_eq_init_or_mem :
    ∀ (l : List ℝ) (a : ℝ), l.foldl max a = a ∨ l.foldl max a ∈ l := by
  intro l
  induction l with
  | nil => intro a; left; rfl
  | cons x t ih =>
    intro a
    rcases ih (max a x) with h | h
    · rcases max_choice a x with hm | hm
      · left; rw [List.foldl_cons, h, hm]
      · right; rw [List.foldl_cons, h, hm]; exact List.mem_cons_self x t
    · right; exact List.mem_cons_of_mem x h

lemma foldl_min_le : ∀ (l : List ℝ) (a : ℝ), l.foldl min a ≤ a := by
  intro l
  induction l with
  | nil => intro a; simp
  | cons x t ih => intro a; exact le_trans (ih (min a x)) (min_le_left a x)

lemma foldl_min_le_mem : ∀ (l : List ℝ) (a x : ℝ), x ∈ l → l.foldl min a ≤ x := by
  intro l
  induction l with
  | nil => intro a x h; simp at h
  | cons y t ih =>
    intro a x h
    rcases List.mem_cons.mp h with rfl | h2
    · exact le_trans (foldl_min_le t (min a x)) (min_le_right a x)
    · exact ih (min a y) x h2

lemma foldl_min_eq_init_or_mem :
    ∀ (l : List ℝ) (a : ℝ), l.foldl min a = a ∨ l.foldl min a ∈ l := by
  intro l
  induction l with
  | nil => intro a; left; rfl
  | cons x t ih =>
    intro a
    rcases ih (min a x) with h | h
    · rcases min_choice a x with hm | hm
      · left; rw [List.foldl_cons, h, hm]
      · right; rw [List.foldl_cons, h, hm]; exact List.mem_cons_self x t
    · right; exact List.mem_cons_of_mem x h

lemma updateExtents_maxX (e : Extents) (w : ProjectedWord) :
    (updateExtents e w).maxX = max e.maxX w.x := by
  show (if w.x > e.maxX then w.x else e.maxX) = max e.maxX w.x
  rcases le_or_lt w.x e.maxX with h | h
  · rw [if_neg (not_lt.mpr h), max_eq_left h]
  · rw [if_pos h, max_eq_right h.le]

lemma updateExtents_minX (e : Extents) (w : ProjectedWord) :
    (updateExtents e w).minX = min e.minX w.x := by
  show (if w.x < e.minX then w.x else e.minX) = min e.minX w.x
  rcases le_or_lt e.minX w.x with h | h
  · rw [if_neg (not_lt.mpr h), min_eq_left h]
  · rw [if_pos h, min_eq_right h.le]

lemma updateExtents_maxY (e : Extents) (w : ProjectedWord) :
    (updateExtents e w).maxY = max e.maxY w.y := by
  show (if w.y > e.maxY then w.y else e.maxY) = max e.maxY w.y
  rcases le_or_lt w.y e.maxY with h | h
  · rw [if_neg (not_lt.mpr h), max_eq_left h]
  · rw [if_pos h, max_eq_right h.le]

lemma updateExtents_minY (e : Extents) (w : ProjectedWord) :
    (updateExtents e w).minY = min e.minY w.y := by
  show (if w.y < e.minY then w.y else e.minY) = min e.minY w.y
  rcases le_or_lt e.minY w.y with h | h
  · rw [if_neg (not_lt.mpr h), min_eq_left h]
  · rw [if_pos h, min_eq_right h.le]

lemma updateExtents_maxZ (e : Extents) (w : ProjectedWord) :
    (updateExtents e w).maxZ = max e.maxZ w.z := by
  show (if w.z > e.maxZ then w.z else e.maxZ) = max e.maxZ w.z
  rcases le_or_lt w.z e.maxZ with h | h
  · rw [if_neg (not_lt.mpr h), max_eq_left h]
  · rw [if_pos h, max_eq_right h.le]

lemma updateExtents_minZ (e : Extents) (w : ProjectedWord) :
    (updateExtents e w).minZ = min e.minZ w.z := by
  show (if w.z < e.minZ then w.z else e.minZ) = min e.minZ w.z
  rcases le_or_lt e.minZ w.z with h | h
  · rw [if_neg (not_lt.mpr h), min_eq_left h]
  · rw [if_pos h, min_eq_right h.le]

lemma foldl_updateExtents_maxX : ∀ (ws : List ProjectedWord) (e : Extents),
    (ws.foldl updateExtents e).maxX = (ws.map fun w => w.x).foldl max e.maxX := by
  intro ws
  induction ws with
  | nil => intro e; rfl
  | cons w t ih =>
    intro e
    rw [List.foldl_cons, List.map_cons, List.foldl_cons, ih, updateExtents_maxX]

lemma foldl_updateExtents_minX : ∀ (ws : List ProjectedWord) (e : Extents),
    (ws.foldl updateExtents e).minX = (ws.map fun w => w.x).foldl min e.minX := by
  intro ws
  induction ws with
  | nil => intro e; rfl
  | cons w t ih =>
    intro e
    rw [List.foldl_cons, List.map_cons, List.foldl_cons, ih, updateExtents_minX]

lemma foldl_updateExtents_maxY : ∀ (ws : List ProjectedWord) (e : Extents),
    (ws.foldl updateExtents e).maxY = (ws.map fun w => w.y).foldl max e.maxY := by
  intro ws
  induction ws with
  | nil => intro e; rfl
  | cons w t ih =>
    intro e
    rw [List.foldl_cons, List.map_cons, List.foldl_cons, ih, updateExtents_maxY]

lemma foldl_updateExtents_minY : ∀ (ws : List ProjectedWord) (e : Extents),
    (ws.foldl updateExtents e).minY = (ws.map fun w => w.y).foldl min e.minY := by
  intro ws
  induction ws with
  | nil => intro e; rfl
  | cons w t ih =>
    intro e
    rw [List.foldl_cons, List.map_cons, List.foldl_cons, ih, updateExtents_minY]

lemma foldl_updateExtents_maxZ : ∀ (ws : List ProjectedWord) (e : Extents),
    (ws.foldl updateExtents e).maxZ = (ws.map fun w => w.z).foldl max e.maxZ := by
  intro ws
  induction ws with
  | nil => intro e; rfl
  | cons w t ih =>
    intro e
    rw [List.foldl_cons, List.map_cons, List.foldl_cons, ih, updateExtents_maxZ]

lemma foldl_updateExtents_minZ : ∀ (ws : List ProjectedWord) (e : Extents),
    (ws.foldl updateExtents e).minZ = (ws.map fun w => w.z).foldl min e.minZ := by
  intro ws
  induction ws with
  | nil => intro e; rfl
  | cons w t ih =>
    intro e
    rw [List.foldl_cons, List.map_cons, List.foldl_cons, ih, updateExtents_minZ]

/-- Characterization of a running maximum started at 0: it is nonnegative, it
bounds every coordinate of the list, and it is either 0 or attained by some
list element. -/
lemma foldl_max_zero_spec (l : List ℝ) :
    0 ≤ l.foldl max 0 ∧ (∀ x ∈ l, x ≤ l.foldl max 0) ∧
      (l.foldl max 0 = 0 ∨ l.foldl max 0 ∈ l) :=
  ⟨le_foldl_max l 0, fun x hx => mem_le_foldl_max l 0 x hx, foldl_max_eq_init_or_mem l 0⟩

/-- Characterization of a running minimum started at 0. -/
lemma foldl_min_zero_spec (l : List ℝ) :
    l.foldl min 0 ≤ 0 ∧ (∀ x ∈ l, l.foldl min 0 ≤ x) ∧
      (l.foldl min 0 = 0 ∨ l.foldl min 0 ∈ l) :=
  ⟨foldl_min_le l 0, fun x hx => foldl_min_le_mem l 0 x hx, foldl_min_eq_init_or_mem l 0⟩

/-! ## Claim C6 -/

/-- C6: the six beacons returned by `getBeaconPositions` are each placed on
their own axis with the two other coordinates exactly 0, at exactly 1.2 times
an extremum value that is (for positive beacons) nonnegative, bounds every
projected coordinate on that axis, and is either attained by a projected word
or equal to 0 when no word exceeds the origin on that side — and symmetrically
for the negative beacons. -/
theorem c6_beacons (axes : AxisNames) (ws : List ProjectedWord) :
    ∃ mxX mnX mxY mnY mxZ mnZ : ℝ,
      getBeaconPositions axes ws =
        [⟨axes.xNeg, mnX * 1.2, 0, 0, "x-"⟩,
         ⟨axes.xPos, mxX * 1.2, 0, 0, "x+"⟩,
         ⟨axes.yPos, 0, mxY * 1.2, 0, "y+"⟩,
         ⟨axes.yNeg, 0, mnY * 1.2, 0, "y-"⟩,
         ⟨axes.zPos, 0, 0, mxZ * 1.2, "z+"⟩,
         ⟨axes.zNeg, 0, 0, mnZ * 1.2, "z-"⟩] ∧
      (0 ≤ mxX ∧ (∀ w ∈ ws, w.x ≤ mxX) ∧ (mxX = 0 ∨ ∃ w ∈ ws, w.x = mxX)) ∧
      (mnX ≤ 0 ∧ (∀ w ∈ ws, mnX ≤ w.x) ∧ (mnX = 0 ∨ ∃ w ∈ ws, w.x = mnX)) ∧
      (0 ≤ mxY ∧ (∀ w ∈ ws, w.y ≤ mxY) ∧ (mxY = 0 ∨ ∃ w ∈ ws, w.y = mxY)) ∧
      (mnY ≤ 0 ∧ (∀ w ∈ ws, mnY ≤ w.y) ∧ (mnY = 0 ∨ ∃ w ∈ ws, w.y = mnY)) ∧
      (0 ≤ mxZ ∧ (∀ w ∈ ws, w.z ≤ mxZ) ∧ (mxZ = 0 ∨ ∃ w ∈ ws, w.z = mxZ)) ∧
      (mnZ ≤ 0 ∧ (∀ w ∈ ws, mnZ ≤ w.z) ∧ (mnZ = 0 ∨ ∃ w ∈ ws, w.z = mnZ)) := by
  refine ⟨(ws.foldl updateExtents ⟨0, 0, 0, 0, 0, 0⟩).maxX,
    (ws.foldl updateExtents ⟨0, 0, 0, 0, 0, 0⟩).minX,
    (ws.foldl updateExtents ⟨0, 0, 0, 0, 0, 0⟩).maxY,
    (ws.foldl updateExtents ⟨0, 0, 0, 0, 0, 0⟩).minY,
    (ws.foldl updateExtents ⟨0, 0, 0, 0, 0, 0⟩).maxZ,
    (ws.foldl updateExtents ⟨0, 0, 0, 0, 0, 0⟩).minZ,
    rfl, ?_, ?_, ?_, ?_, ?_, ?_⟩
  · rw [foldl_updateExtents_maxX]
    obtain ⟨hn, hb, hm⟩ := foldl_max_zero_spec (ws.map fun w => w.x)
    refine ⟨hn, fun w hw => hb _ (List.mem_map_of_mem _ hw), ?_⟩
    rcases hm with hm | hm
    · exact Or.inl hm
    · obtain ⟨w, hw, he⟩ := List.mem_map.mp hm
      exact Or.inr ⟨w, hw, he⟩
  · rw [foldl_updateExtents_minX]
    obtain ⟨hn, hb, hm⟩ := foldl_min_zero_spec (ws.map fun w => w.x)
    refine ⟨hn, fun w hw => hb _ (List.mem_map_of_mem _ hw), ?_⟩
    rcases hm with hm | hm
    · exact Or.inl hm
    · obtain ⟨w, hw, he⟩ := List.mem_map.mp hm
      exact Or.inr ⟨w, hw, he⟩
  · rw [foldl_updateExtents_maxY]
    obtain ⟨hn, hb, hm⟩ := foldl_max_zero_spec (ws.map fun w => w.y)
    refine ⟨hn, fun w hw => hb _ (List.mem_map_of_mem _ hw), ?_⟩
    rcases hm with hm | hm
    · exact Or.inl hm
    · obtain ⟨w, hw, he⟩ := List.mem_map.mp hm
      exact Or.inr ⟨w, hw, he⟩
  · rw [foldl_updateExtents_minY]
    obtain ⟨hn, hb, hm⟩ := foldl_min_zero_spec (ws.map fun w => w.y)
    refine ⟨hn, fun w hw => hb _ (List.mem_map_of_mem _ hw), ?_⟩
    rcases hm with hm | hm
    · exact Or.inl hm
    · obtain ⟨w, hw, he⟩ := List.mem_map.mp hm
      exact Or.inr ⟨w, hw, he⟩
  · rw [foldl_updateExtents_maxZ]
    obtain ⟨hn, hb, hm⟩ := foldl_max_zero_spec (ws.map fun w => w.z)
    refine ⟨hn, fun w hw => hb _ (List.mem_map_of_mem _ hw), ?_⟩
    rcases hm with hm | hm
    · exact Or.inl hm
    · obtain ⟨w, hw, he⟩ := List.mem_map.mp hm
      exact Or.inr ⟨w, hw, he⟩
  · rw [foldl_updateExtents_minZ]
    obtain ⟨hn, hb, hm⟩ := foldl_min_zero_spec (ws.map fun w => w.z)
    refine ⟨hn, fun w hw => hb _ (List.mem_map_of_mem _ hw), ?_⟩
    rcases hm with hm | hm
    · exact Or.inl hm
    · obtain ⟨w, hw, he⟩ := List.mem_map.mp hm
      exact Or.inr ⟨w, hw, he⟩


/-! ## Lemmas about the level-of-detail bands -/

lemma lod_base (b : ℝ) (hb : 0 < b) : (if b = 0 then (0.5 : ℝ) else b) = b :=
  if_neg (ne_of_gt hb)

lemma lod_far_band (cfg : LODConfig) (b : ℝ)
    (h0 : 0 < cfg.innerFade) (h1 : cfg.innerFade < cfg.nearDistance)
    (h2 : cfg.nearDistance < cfg.farDistance) (h3 : cfg.farDistance < cfg.cullDistance)
    (hb : 0 < b) (d1 d2 : ℝ) (hd2 : cfg.farDistance ≤ d2) (hlt : d2 < d1)
    (hd1 : d1 ≤ cfg.cullDistance) :
    effectiveOpacity cfg b d1 < effectiveOpacity cfg b d2 := by
  simp only [effectiveOpacity, visibilityAt, lod_base b hb]
  have hb1 : ¬ d1 > cfg.cullDistance := not_lt.mpr hd1
  have hfar1 : d1 > cfg.farDistance := lt_of_le_of_lt hd2 hlt
  have hb2 : ¬ d2 > cfg.cullDistance := not_lt.mpr (le_of_lt (lt_of_lt_of_le hlt hd1))
  rw [if_neg hb1, if_pos hfar1, if_neg hb2]
  by_cases hf2 : d2 > cfg.farDistance
  · rw [if_pos hf2]
    simp only [Option.getD_some]
    have ht : (d2 - cfg.farDistance) / (cfg.cullDistance - cfg.farDistance) <
        (d1 - cfg.farDistance) / (cfg.cullDistance - cfg.farDistance) :=
      (div_lt_div_iff_of_pos_right (by linarith)).mpr (by linarith)
    have := mul_lt_mul_of_pos_left (sub_lt_sub_left ht 1) hb
    linarith
  · have hd2e : d2 = cfg.farDistance := le_antisymm (not_lt.mp hf2) hd2
    have hni : ¬ d2 < cfg.innerFade := by rw [hd2e]; exact not_lt.mpr (by linarith)
    have hnn : ¬ d2 < cfg.nearDistance := by rw [hd2e]; exact not_lt.mpr (by linarith)
    rw [if_neg hf2, if_neg hni, if_neg hnn]
    simp only [Option.getD_some]
    have hpos : 0 < (d1 - cfg.farDistance) / (cfg.cullDistance - cfg.farDistance) :=
      div_pos (by linarith) (by linarith)
    nlinarith

lemma lod_flat (cfg : LODConfig) (b : ℝ)
    (h0 : 0 < cfg.innerFade) (h1 : cfg.innerFade < cfg.nearDistance)
    (h2 : cfg.nearDistance < cfg.farDistance) (h3 : cfg.farDistance < cfg.cullDistance)
    (hb : 0 < b) (d : ℝ) (hn : cfg.nearDistance ≤ d) (hf : d ≤ cfg.farDistance) :
    effectiveOpacity cfg b d = b := by
  simp only [effectiveOpacity, visibilityAt, lod_base b hb]
  rw [if_neg (not_lt.mpr (by linarith)), if_neg (not_lt.mpr hf),
    if_neg (not_lt.mpr (by linarith)), if_neg (not_lt.mpr hn)]
  rfl

lemma lod_maximal (cfg : LODConfig) (b : ℝ)
    (h0 : 0 < cfg.innerFade) (h1 : cfg.innerFade < cfg.nearDistance)
    (h2 : cfg.nearDistance < cfg.farDistance) (h3 : cfg.farDistance < cfg.cullDistance)
    (hb : 0 < b) (d : ℝ) (hd : 0 ≤ d) :
    effectiveOpacity cfg b d ≤ b := by
  simp only [effectiveOpacity, visibilityAt, lod_base b hb]
  split_ifs with hc hf hi hn
  · simpa using hb.le
  · simp only [Option.getD_some]
    have ht : 0 ≤ (d - cfg.farDistance) / (cfg.cullDistance - cfg.farDistance) :=
      div_nonneg (by linarith) (by linarith)
    nlinarith
  · simp only [Option.getD_some]
    have ht0 : 0 ≤ d / cfg.innerFade := div_nonneg hd h0.le
    have ht1 : d / cfg.innerFade < 1 := (div_lt_one h0).mpr hi
    nlinarith
  · simp only [Option.getD_some]
    have hge : cfg.innerFade ≤ d := not_lt.mp hi
    have ht0 : 0 ≤ (d - cfg.innerFade) / (cfg.nearDistance - cfg.innerFade) :=
      div_nonneg (by linarith) (by linarith)
    have ht1 : (d - cfg.innerFade) / (cfg.nearDistance - cfg.innerFade) < 1 :=
      (div_lt_one (by linarith)).mpr (by linarith)
    nlinarith
  · simp

lemma lod_close_band (cfg : LODConfig) (b : ℝ)
    (h0 : 0 < cfg.innerFade) (h1 : cfg.innerFade < cfg.nearDistance)
    (h2 : cfg.nearDistance < cfg.farDistance) (h3 : cfg.farDistance < cfg.cullDistance)
    (hb : 0 < b) (d1 d2 : ℝ) (hd2 : 0 ≤ d2) (hlt : d2 < d1) (hd1 : d1 ≤ cfg.innerFade) :
    effectiveOpacity cfg b d2 < effectiveOpacity cfg b d1 := by
  simp only [effectiveOpacity, visibilityAt, lod_base b hb]
  have hi2 : d2 < cfg.innerFade := lt_of_lt_of_le hlt hd1
  rw [if_neg (not_lt.mpr (by linarith : d2 ≤ cfg.cullDistance)),
    if_neg (not_lt.mpr (by linarith : d2 ≤ cfg.farDistance)), if_pos hi2,
    if_neg (not_lt.mpr (by linarith : d1 ≤ cfg.cullDistance)),
    if_neg (not_lt.mpr (by linarith : d1 ≤ cfg.farDistance))]
  by_cases hi1 : d1 < cfg.innerFade
  · rw [if_pos hi1]
    simp only [Option.getD_some]
    have ht : d2 / cfg.innerFade < d1 / cfg.innerFade :=
      (div_lt_div_iff_of_pos_right h0).mpr hlt
    nlinarith
  · have hd1e : d1 = cfg.innerFade := le_antisymm hd1 (not_lt.mp hi1)
    rw [if_neg hi1, if_pos (by rw [hd1e]; exact h1)]
    simp only [Option.getD_some]
    rw [hd1e]
    have hz : (cfg.innerFade - cfg.innerFade) / (cfg.nearDistance - cfg.innerFade) = 0 := by
      rw [sub_self, zero_div]
    rw [hz]
    have ht : d2 / cfg.innerFade < 1 := (div_lt_one h0).mpr hi2
    have ht0 : 0 ≤ d2 / cfg.innerFade := div_nonneg hd2 h0.le
    nlinarith

lemma lod_culled (cfg : LODConfig) (b : ℝ) (d : ℝ) (hd : cfg.cullDistance < d) :
    effectiveOpacity cfg b d = 0 := by
  simp only [effectiveOpacity, visibilityAt]
  rw [if_pos hd]
  rfl

/-! ## Claim C7 -/

/-- C7: for thresholds `innerFade < nearDistance < farDistance < cullDistance`
and a positive base opacity, the per-frame classification makes the effective
opacity strictly increase as the distance falls from `cullDistance` to
`farDistance`, stay flat at the maximal value `baseOpacity` between
`nearDistance` and `farDistance` (never exceeded anywhere), decrease again
below `innerFade`, and vanish beyond `cullDistance`; with the default
thresholds a word at distance 300 is invisible, at distance 100 has exactly its
base opacity, and at distance 2 has opacity below half its base opacity. -/
theorem c7_lod_bands (cfg : LODConfig) (b : ℝ)
    (h0 : 0 < cfg.innerFade) (h1 : cfg.innerFade < cfg.nearDistance)
    (h2 : cfg.nearDistance < cfg.farDistance) (h3 : cfg.farDistance < cfg.cullDistance)
    (hb : 0 < b) :
    (∀ d1 d2 : ℝ, cfg.farDistance ≤ d2 → d2 < d1 → d1 ≤ cfg.cullDistance →
      effectiveOpacity cfg b d1 < effectiveOpacity cfg b d2) ∧
    (∀ d : ℝ, cfg.nearDistance ≤ d → d ≤ cfg.farDistance →
      effectiveOpacity cfg b d = b) ∧
    (∀ d : ℝ, 0 ≤ d → effectiveOpacity cfg b d ≤ b) ∧
    (∀ d1 d2 : ℝ, 0 ≤ d2 → d2 < d1 → d1 ≤ cfg.innerFade →
      effectiveOpacity cfg b d2 < effectiveOpacity cfg b d1) ∧
    (∀ d : ℝ, cfg.cullDistance < d → effectiveOpacity cfg b d = 0) ∧
    visibilityAt defaultLOD b 300 = none ∧
    effectiveOpacity defaultLOD b 100 = b ∧
    effectiveOpacity defaultLOD b 2 < b * 0.5 := by
  refine ⟨fun d1 d2 ha hc hd => lod_far_band cfg b h0 h1 h2 h3 hb d1 d2 ha hc hd,
    fun d ha hc => lod_flat cfg b h0 h1 h2 h3 hb d ha hc,
    fun d hd => lod_maximal cfg b h0 h1 h2 h3 hb d hd,
    fun d1 d2 ha hc hd => lod_close_band cfg b h0 h1 h2 h3 hb d1 d2 ha hc hd,
    fun d hd => lod_culled cfg b d hd, ?_, ?_, ?_⟩
  · simp only [visibilityAt, defaultLOD]
    rw [if_pos (by norm_num)]
  · exact lod_flat defaultLOD b (by norm_num [defaultLOD]) (by norm_num [defaultLOD])
      (by norm_num [defaultLOD]) (by norm_num [defaultLOD]) hb 100
      (by norm_num [defaultLOD]) (by norm_num [defaultLOD])
  · have he : effectiveOpacity defaultLOD b 2 = b * (2 / 5) * 0.5 := by
      simp only [effectiveOpacity, visibilityAt, defaultLOD, lod_base b hb]
      rw [if_neg (by norm_num), if_neg (by norm_num), if_pos (by norm_num)]
      rfl
    rw [he]
    nlinarith

/-- C7 witness: the band theorem applies at the default thresholds with base
opacity 0.8; the flat band then reports exactly the base opacity at distance
100. -/
theorem c7_lod_bands_witness :
    (0 : ℝ) < 0.8 ∧ effectiveOpacity defaultLOD 0.8 100 = 0.8 :=
  ⟨by norm_num,
    (c7_lod_bands defaultLOD 0.8 (by norm_num [defaultLOD]) (by norm_num [defaultLOD])
      (by norm_num [defaultLOD]) (by norm_num [defaultLOD]) (by norm_num)).2.1 100
      (by norm_num [defaultLOD]) (by norm_num [defaultLOD])⟩


/-! ## Claim C9 -/

/-- C9 counterexample: six identical non-empty words — one distinct word,
fewer than six — pass validation with no error, so validation does not check
distinctness before embedding begins. -/
theorem c9_counterexample :
    validateAxisWords ⟨"cat", "cat", "cat", "cat", "cat", "cat"⟩ =
      Except.ok ⟨"cat", "cat", "cat", "cat", "cat", "cat"⟩ ∧
    (["cat", "cat", "cat", "cat", "cat", "cat"] : List String).dedup.length = 1 := by
  constructor
  · rfl
  · decide

/-- C9 (amended): the launch handler validates only non-emptiness: an input
validation error is surfaced — before any embedding or projection work begins —
exactly when one of the six supplied words is empty after trimming; duplicated
words are permitted and raise no error, so fewer than six distinct words can
still launch. -/
theorem c9_empty_word_validation (input : AxisInput) :
    validateAxisWords input = Except.error "Please fill in all 6 words." ↔
      (normalizeInput input.left = "" ∨ normalizeInput input.right = "" ∨
       normalizeInput input.up = "" ∨ normalizeInput input.down = "" ∨
       normalizeInput input.forward = "" ∨ normalizeInput input.backward = "") := by
  simp only [validateAxisWords]
  split_ifs with h
  · exact iff_of_true rfl h
  · exact iff_of_false (by simp) h

/-- C9 amended-claim witness: a concrete input whose first field is empty is
rejected by the validation. -/
theorem c9_empty_word_validation_witness :
    validateAxisWords ⟨"", "big", "sky", "sea", "hot", "ice"⟩ =
      Except.error "Please fill in all 6 words." :=
  (c9_empty_word_validation ⟨"", "big", "sky", "sea", "hot", "ice"⟩).mpr (Or.inl rfl)

/-! ## Claim C10 -/

/-- C10: projecting an empty selected-index list returns the empty list — no
error is raised and no numeric value (in particular no NaN) is produced — and
`getBeaconPositions` applied to that empty projection places all six beacons
exactly at the origin. -/
theorem c10_empty_selection (vocabData : VocabData) (axisVectors : AxisVectors)
    (axes : AxisNames) (scale : ℝ) :
    projectWords vocabData axisVectors [] scale = [] ∧
    getBeaconPositions axes (projectWords vocabData axisVectors [] scale) =
      [⟨axes.xNeg, 0, 0, 0, "x-"⟩, ⟨axes.xPos, 0, 0, 0, "x+"⟩,
       ⟨axes.yPos, 0, 0, 0, "y+"⟩, ⟨axes.yNeg, 0, 0, 0, "y-"⟩,
       ⟨axes.zPos, 0, 0, 0, "z+"⟩, ⟨axes.zNeg, 0, 0, 0, "z-"⟩] := by
  refine ⟨rfl, ?_⟩
  show getBeaconPositions axes [] = _
  simp only [getBeaconPositions, List.foldl_nil]
  norm_num

end StrangeNames



